import Mathlib

/-!
Verification development for a single-page SEO analysis pipeline.

The pipeline fetches one web page (with a TTL cache), extracts keywords,
scores readability, probes performance, and emits heuristic suggestions,
merging everything into one report per URL.  Each Python module is given
a shallow embedding below; network and HTML-parsing effects are modelled
as explicit outcome parameters, machine floats as rationals.
-/

/-! ## Keyword extraction (keyword_utils.py) -/

/-- The fixed stop-word set from keyword_utils.STOP_WORDS. -/
def STOP_WORDS : List String :=
  [("a"), ("an"), ("and"), ("are"), ("as"), ("at"), ("be"), ("but"), ("by"), ("for"),
   ("from"), ("if"), ("in"), ("into"), ("is"), ("it"), ("no"), ("not"), ("of"), ("on"),
   ("or"), ("such"), ("that"), ("the"), ("their"), ("then"), ("there"), ("these"),
   ("they"), ("this"), ("to"), ("was"), ("will"), ("with"), ("we"), ("you"), ("your")]

def isUpperAZ (c : Char) : Bool := 'A' ≤ c && c ≤ 'Z'

def isLowerAZ (c : Char) : Bool := 'a' ≤ c && c ≤ 'z'

def isAsciiLetter (c : Char) : Bool := isUpperAZ c || isLowerAZ c

/-- The apostrophe character, one of the two interior characters WORD_RE allows. -/
def apos : Char := Char.ofNat 39

/-- Characters allowed after the leading letter by WORD_RE, the class [A-Za-z'-]. -/
def isWordChar (c : Char) : Bool := isAsciiLetter c || c == apos || c == '-'

/-- Scanner equivalent of WORD_RE.finditer: a match is a letter followed by one
or more word characters, taken greedily; positions that cannot start a match
are skipped.  The accumulator holds the current candidate run, reversed. -/
def tokenizeGo : List Char → List Char → List (List Char)
  | acc, [] => if acc.length ≥ 2 then [acc.reverse] else []
  | acc, c :: cs =>
    if acc.isEmpty then
      if isAsciiLetter c then tokenizeGo [c] cs else tokenizeGo [] cs
    else
      if isWordChar c then tokenizeGo (c :: acc) cs
      else (if acc.length ≥ 2 then [acc.reverse] else []) ++ tokenizeGo [] cs

/-- ASCII lower-casing; WORD_RE only produces ASCII tokens. -/
def asciiLower (c : Char) : Char :=
  if isUpperAZ c then Char.ofNat (c.toNat + 32) else c

/-- The lower-cased token list of keyword_utils: WORD_RE matches, then .lower(). -/
def tokenWords (text : String) : List String :=
  (tokenizeGo [] text.data).map (fun t => String.mk (t.map asciiLower))

/-- Tokens surviving the stop-word and length filter of extract_keywords. -/
def filteredWords (text : String) : List String :=
  (tokenWords text).filter (fun w => !(STOP_WORDS.contains w) && decide (2 < w.length))

structure KeywordRecord where
  keyword : String
  count : Nat
deriving DecidableEq, Repr

/-- Distinct elements in first-occurrence order, as Counter key order. -/
def firstOccs : List String → List String
  | [] => []
  | w :: ws => w :: (firstOccs ws).filter (fun v => v ≠ w)

/-- Counter(filtered): each distinct token in first-occurrence order with its
multiplicity in the full token list. -/
def keywordCounts (text : String) : List KeywordRecord :=
  (firstOccs (filteredWords text)).map
    (fun w => { keyword := w, count := (filteredWords text).count w })

/-- Stable descending insertion: the new record goes after every record whose
count is at least as large, as Counter.most_common (sorted, reverse) does. -/
def insertDesc (x : KeywordRecord) : List KeywordRecord → List KeywordRecord
  | [] => [x]
  | y :: ys => if x.count ≤ y.count then y :: insertDesc x ys else x :: y :: ys

/-- Stable sort by descending count (ties keep first-occurrence order). -/
def sortDesc (l : List KeywordRecord) : List KeywordRecord :=
  l.foldl (fun acc x => insertDesc x acc) []

/-- keyword_utils.extract_keywords: tokenize, filter, count, stable descending
sort, truncate to top_n. -/
def extract_keywords (text : String) (top_n : Nat := 15) : List KeywordRecord :=
  (sortDesc (keywordCounts text)).take top_n

/-! ## Readability scoring (readability_utils.py)

The textstat library is an optional primary path; the manual Flesch fallback
below is the always-available algorithm the spec describes, and the embedding
models compute_readability on that fallback path (_USE_TEXTSTAT = False). -/

/-- Maximal ASCII-letter runs, as re.findall of one-or-more letters.  The
accumulator holds the current run reversed. -/
def lettersGo : List Char → List Char → List (List Char)
  | acc, [] => if acc.isEmpty then [] else [acc.reverse]
  | acc, c :: cs =>
    if isAsciiLetter c then lettersGo (c :: acc) cs
    else (if acc.isEmpty then [] else [acc.reverse]) ++ lettersGo [] cs

/-- Split a character list at every occurrence of one of the separator
characters, keeping empty segments, as re.split and str.split do. -/
def splitOnAny (seps : List Char) : List Char → List (List Char)
  | [] => [[]]
  | c :: cs =>
    if seps.contains c then [] :: splitOnAny seps cs
    else
      match splitOnAny seps cs with
      | s :: rest => (c :: s) :: rest
      | [] => [[c]]

def isVowelChar (c : Char) : Bool :=
  c == 'a' || c == 'e' || c == 'i' || c == 'o' || c == 'u' || c == 'y'

/-- Count of vowel groups: a vowel whose predecessor is not a vowel starts a
group; the flag records whether the previous character was a vowel. -/
def vowelGroups : List Char → Bool → Nat
  | [], _ => 0
  | c :: cs, prev =>
    (if isVowelChar c && !prev then 1 else 0) + vowelGroups cs (isVowelChar c)

/-- readability_utils._syllable_count: lower-case, strip non-letters, count
vowel groups, subtract a silent trailing e, floor at one syllable. -/
def syllable_count (w : List Char) : Nat :=
  let u := (w.map asciiLower).filter isLowerAZ
  let n := vowelGroups u false
  let n := if u.getLast? == some 'e' && decide (1 < n) then n - 1 else n
  max 1 n

/-- The word list of the manual Flesch path: maximal letter runs. -/
def fleschWords (t : String) : List (List Char) := lettersGo [] t.data

/-- Number of sentence segments that remain non-empty after stripping
whitespace: re.split on period, exclamation or question mark, then the
non-blank filter. -/
def sentenceSegCount (t : String) : Nat :=
  ((splitOnAny ['.', '!', '?'] t.data).filter
    (fun s => s.any (fun c => !c.isWhitespace))).length

/-- words_count, guarded: an empty word list counts as one. -/
def wordsCountG (t : String) : Nat :=
  if (fleschWords t).isEmpty then 1 else (fleschWords t).length

/-- sentences_count, guarded: zero sentences count as one. -/
def sentencesCountG (t : String) : Nat :=
  if sentenceSegCount t = 0 then 1 else sentenceSegCount t

/-- Total syllable estimate over all words. -/
def syllablesTotal (t : String) : Nat :=
  ((fleschWords t).map syllable_count).sum

/-- readability_utils._flesch_reading_ease_manual, over exact rationals. -/
def flesch_reading_ease_manual (t : String) : ℚ :=
  (206.835 : ℚ)
    - (1.015 : ℚ) * ((wordsCountG t : ℚ) / (sentencesCountG t : ℚ))
    - (84.6 : ℚ) * ((syllablesTotal t : ℚ) / (wordsCountG t : ℚ))

/-- Floor of a rational, computed by flooring integer division. -/
def floorQ (q : ℚ) : ℤ := Int.fdiv q.num q.den

/-- Round half to even, the rounding Python applies to floats. -/
def roundHalfEven (q : ℚ) : ℤ :=
  let f := floorQ q
  let r := q - (f : ℚ)
  if r < (1 : ℚ) / 2 then f
  else if (1 : ℚ) / 2 < r then f + 1
  else if f % 2 = 0 then f else f + 1

/-- Python round(q, n) idealised over exact rationals. -/
def pyRound (q : ℚ) (n : Nat) : ℚ :=
  ((roundHalfEven (q * (10 : ℚ) ^ n) : ℚ)) / (10 : ℚ) ^ n

structure ReadabilityResult where
  score : ℚ
  level : String
deriving DecidableEq, Repr

/-- The seven-band interpretation chain of compute_readability; every lower
boundary is closed because each test is a greater-or-equal comparison. -/
def interpretScore (score : ℚ) : String :=
  if 90 ≤ score then ("Very easy (5th grade)")
  else if 80 ≤ score then ("Easy (6th grade)")
  else if 70 ≤ score then ("Fairly easy")
  else if 60 ≤ score then ("Standard (8th–9th grade)")
  else if 50 ≤ score then ("Fairly difficult (10th–12th grade)")
  else if 30 ≤ score then ("Difficult (college)")
  else ("Very confusing")

/-- readability_utils.compute_readability on the manual fallback path: the
interpretation reads the raw score, the reported score is rounded to two
decimals. -/
def compute_readability (text : String) : ReadabilityResult :=
  { score := pyRound (flesch_reading_ease_manual text) 2
    level := interpretScore (flesch_reading_ease_manual text) }

/-! ## Performance probe (performance_utils.py)

The network interaction of analyze_performance is modelled as an outcome
parameter: either the GET completed with a status, an elapsed time and a
body, or some exception was raised, carrying the message str(exc) gives
(which is empty for, e.g., a bare timeout error). -/

inductive ProbeOutcome where
  | success (status : Int) (elapsed : ℚ) (bodyBytes : Nat)
  | failure (msg : String)
deriving DecidableEq, Repr

structure PerfResult where
  status_code : Int
  response_time_seconds : Option ℚ
  page_size_kb : Option ℚ
  error : Option String
deriving DecidableEq, Repr

/-- performance_utils.analyze_performance: on completion the three metric
keys and no error key; on any exception the tagged failure value. -/
def analyze_performance : ProbeOutcome → PerfResult
  | .success s t b =>
    { status_code := s
      response_time_seconds := some (pyRound t 3)
      page_size_kb := some (pyRound ((b : ℚ) / 1024) 2)
      error := none }
  | .failure m =>
    { status_code := -1
      response_time_seconds := none
      page_size_kb := none
      error := some m }

/-! ## Content fetching with TTL cache (content_analyzer.py)

The BeautifulSoup extraction of fetch_content is not embeddable; a
FetchResult here keeps the two extracted fields the pipeline reads and
stands for the whole result dictionary, which no claim inspects further.
The one network GET per cache miss is an outcome parameter. -/

structure FetchResult where
  content : String
  full_html : String
deriving DecidableEq, Repr

/-- Outcome of the single requests.get of a cache miss: an HTTP response
with its status and the extraction it would yield, a requests.RequestException,
or an unexpected extraction exception. -/
inductive HttpOutcome where
  | response (status : Nat) (fr : FetchResult)
  | netFail (msg : String)
  | parseFail (msg : String)
deriving DecidableEq, Repr

/-- The miss path of fetch_content: raise_for_status raises exactly for
status codes 400–599, and both except branches return None. -/
def fetchMiss : HttpOutcome → Option FetchResult
  | .response s fr => if 400 ≤ s ∧ s < 600 then none else some fr
  | .netFail _ => none
  | .parseFail _ => none

/-- A cache is an association of URLs to a fetched value and the time it was
stored.  First matching entry wins; insertion keeps URLs unique. -/
def entryOf : List (String × FetchResult × Nat) → String → Option (FetchResult × Nat)
  | [], _ => none
  | (u, v, ts) :: rest, url => if u = url then some (v, ts) else entryOf rest url

/-- Modelled from the spec: the TTLCache of cachetools is a library, not part
of this repository.  Spec section 3 (CacheEntry) and 4.1: an entry is served
only while its age is below its time-to-live, otherwise the lookup is a miss.
The capacity bound with oldest-first eviction is not modelled; no claim
depends on it. -/
def lookupLive (cache : List (String × FetchResult × Nat)) (url : String)
    (now ttl : Nat) : Option FetchResult :=
  match entryOf cache url with
  | some (v, ts) => if now < ts + ttl then some v else none
  | none => none

/-- Modelled from the spec: write-through on success replaces any previous
entry for the URL with the new value stamped at the current time. -/
def insertEntry (cache : List (String × FetchResult × Nat)) (url : String)
    (v : FetchResult) (now : Nat) : List (String × FetchResult × Nat) :=
  (url, v, now) :: cache.filter (fun e => e.1 ≠ url)

/-- content_analyzer.fetch_content over the cache state: serve a live cached
entry without network, otherwise run the miss path and write through on
success only.  Returns the result, the new cache and whether the network
was used. -/
def fetch_content (cache : List (String × FetchResult × Nat)) (url : String)
    (now ttl : Nat) (net : HttpOutcome) :
    Option FetchResult × List (String × FetchResult × Nat) × Bool :=
  match lookupLive cache url now ttl with
  | some v => (some v, cache, false)
  | none =>
    match fetchMiss net with
    | some fr => (some fr, insertEntry cache url fr now, true)
    | none => (none, cache, true)

/-! ## AI search suggestions (ai_search_optimizer.py)

HTML parsing is abstracted into the page facts the six rules read; the
sentence-length rule runs on the plain-text content and is embedded in
full. -/

structure PageFacts where
  h1Count : Nat
  h2Count : Nat
  hasListTag : Bool
  hasJsonLd : Bool
  hasMicrodata : Bool
  hasAuthorMeta : Bool
  hasAuthorLink : Bool
  firstParagraphWords : Option Nat
deriving DecidableEq, Repr

def msgH1 : String :=
  ("Use exactly one <h1> heading per page to clearly define the topic.")

def msgH2 : String :=
  ("Include multiple <h2> subheadings to structure your content into sections.")

def msgLists : String :=
  ("Add bullet or numbered lists to break down complex information into digestible points.")

def msgSchema : String :=
  ("Implement schema.org structured data (e.g. Article or FAQ) to help search engines understand your page.")

def msgTrust : String :=
  ("Add author information and, if appropriate, credentials or citations to establish trust and expertise.")

def msgSummaryLong : String :=
  ("Consider adding a concise summary or TL;DR at the beginning of the article to answer common questions quickly.")

def msgSummaryNone : String :=
  ("Add a short introductory paragraph that summarises the page") ++
    String.mk [apos] ++ ("s topic.")

def msgTone : String :=
  ("Use shorter sentences and a conversational tone to improve readability and user engagement.")

/-- Strip leading and trailing whitespace from a character list. -/
def stripWS (s : List Char) : List Char :=
  ((s.dropWhile Char.isWhitespace).reverse.dropWhile Char.isWhitespace).reverse

/-- Number of maximal non-whitespace runs, the length of str.split(). -/
def wsRunCount : List Char → Bool → Nat
  | [], _ => 0
  | c :: cs, inRun =>
    if c.isWhitespace then wsRunCount cs false
    else (if inRun then 0 else 1) + wsRunCount cs true

/-- The sentence list of rule 6: split the content on periods, strip each
segment, keep the non-empty ones. -/
def toneSentences (content : String) : List (List Char) :=
  ((splitOnAny ['.'] content.data).map stripWS).filter (fun s => !s.isEmpty)

/-- Words of a stripped sentence, via whitespace splitting. -/
def sentenceWordCount (s : List Char) : Nat := wsRunCount s false

/-- Rule 6 trigger: average words per sentence above 25.  The float division
sum/len > 25 of the source is rearranged exactly to 25*len < sum. -/
def toneTriggers (content : String) : Bool :=
  let ss := toneSentences content
  !ss.isEmpty && decide (25 * ss.length < (ss.map sentenceWordCount).sum)

/-- A category entry of the suggestion dictionary: present with its messages
exactly when its rule condition holds. -/
def condBlock (c : Bool) (name : String) (msgs : List String) :
    List (String × List String) :=
  if c then [(name, msgs)] else []

/-- Rule 1 messages: the h1 check and the h2 check can both fire. -/
def headingMsgs (page : PageFacts) : List String :=
  (if page.h1Count ≠ 1 then [msgH1] else []) ++
  (if page.h2Count < 2 then [msgH2] else [])

/-- Rule 5 condition: a first paragraph above 50 words, or no paragraph. -/
def summaryCond (page : PageFacts) : Bool :=
  match page.firstParagraphWords with
  | some n => decide (50 < n)
  | none => true

/-- Rule 5 message: the TLDR hint for a long first paragraph, the intro hint
when no paragraph exists. -/
def summaryMsgs (page : PageFacts) : List String :=
  match page.firstParagraphWords with
  | some _ => [msgSummaryLong]
  | none => [msgSummaryNone]

/-- ai_search_optimizer.analyze_ai_search_factors: each category key is added
to the suggestion dictionary, in rule order, only when its rule fires. -/
def analyze_ai_search_factors (content : String) (page : PageFacts) :
    List (String × List String) :=
  condBlock (!(headingMsgs page).isEmpty) ("headings") (headingMsgs page) ++
  condBlock (!page.hasListTag) ("lists") [msgLists] ++
  condBlock (!(page.hasJsonLd || page.hasMicrodata)) ("schema") [msgSchema] ++
  condBlock (!(page.hasAuthorMeta || page.hasAuthorLink)) ("trust") [msgTrust] ++
  condBlock (summaryCond page) ("summary") (summaryMsgs page) ++
  condBlock (toneTriggers content) ("tone") [msgTone]

/-! ## Report orchestration (seo_analyzer.py)

The five pipeline stages run inside one try block; fetch failure returns
early, and any exception from a later stage falls through to the except
branch with the fields assigned so far intact.  Stage outcomes are
environment parameters; an Except.error carries the exception text. -/

structure AnalyzeEnv where
  fetch : Option FetchResult
  kwRun : Except String (List KeywordRecord)
  rdRun : Except String ReadabilityResult
  pfRun : Except String PerfResult
  aiRun : Except String (List (String × List String))

structure Report where
  url : String
  keyword_analysis : Option (List KeywordRecord) := none
  readability : Option ReadabilityResult := none
  performance : Option PerfResult := none
  ai_search_optimization : Option (List (String × List String)) := none
  error : Option String := none
deriving DecidableEq, Repr

inductive Stage where
  | fetchStage | keywordStage | readabilityStage | performanceStage | aiStage
deriving DecidableEq, Repr

/-- seo_analyzer.analyze_url, with the list of stages that were entered. -/
def analyze_url (env : AnalyzeEnv) (url : String) : Report × List Stage :=
  match env.fetch with
  | none =>
    ({ url := url, error := some ("Failed to fetch content from the URL.") },
      [Stage.fetchStage])
  | some _ =>
    match env.kwRun with
    | .error e =>
      ({ url := url, error := some (("Unexpected error: ") ++ e) },
        [Stage.fetchStage, Stage.keywordStage])
    | .ok ka =>
      match env.rdRun with
      | .error e =>
        ({ url := url, keyword_analysis := some ka,
           error := some (("Unexpected error: ") ++ e) },
          [Stage.fetchStage, Stage.keywordStage, Stage.readabilityStage])
      | .ok rd =>
        match env.pfRun with
        | .error e =>
          ({ url := url, keyword_analysis := some ka, readability := some rd,
             error := some (("Unexpected error: ") ++ e) },
            [Stage.fetchStage, Stage.keywordStage, Stage.readabilityStage,
             Stage.performanceStage])
        | .ok pf =>
          match env.aiRun with
          | .error e =>
            ({ url := url, keyword_analysis := some ka, readability := some rd,
               performance := some pf,
               error := some (("Unexpected error: ") ++ e) },
              [Stage.fetchStage, Stage.keywordStage, Stage.readabilityStage,
               Stage.performanceStage, Stage.aiStage])
          | .ok ai =>
            ({ url := url, keyword_analysis := some ka, readability := some rd,
               performance := some pf, ai_search_optimization := some ai },
              [Stage.fetchStage, Stage.keywordStage, Stage.readabilityStage,
               Stage.performanceStage, Stage.aiStage])

/-! ## Theorems -/

/-- C1: when the content fetch fails, analyze_url returns a report holding
exactly the input URL and the fixed non-empty error string, every stage
section absent, and no analysis stage is entered. -/
theorem analyze_url_fetch_failure (env : AnalyzeEnv) (url : String)
    (h : env.fetch = none) :
    analyze_url env url =
      ({ url := url, error := some ("Failed to fetch content from the URL.") },
        [Stage.fetchStage]) ∧
    ("Failed to fetch content from the URL.") ≠ ("") := by
  refine ⟨?_, by decide⟩
  simp [analyze_url, h]

def envFetchFail : AnalyzeEnv :=
  { fetch := none
    kwRun := .ok []
    rdRun := .ok { score := 0, level := ("Very confusing") }
    pfRun := .ok (analyze_performance (ProbeOutcome.failure ("x")))
    aiRun := .ok [] }

theorem analyze_url_fetch_failure_witness :
    analyze_url envFetchFail ("https://unreachable.invalid") =
      ({ url := ("https://unreachable.invalid")
         error := some ("Failed to fetch content from the URL.") },
        [Stage.fetchStage]) ∧
    ("Failed to fetch content from the URL.") ≠ ("") :=
  analyze_url_fetch_failure envFetchFail ("https://unreachable.invalid") rfl

/-- C2: after a successful fetch, an exception in any of the four analysis
stages aborts the remaining stages; the report keeps the input URL, exactly
the stage fields already assigned before the failing stage, unchanged, plus
the top-level error string. -/
theorem analyze_url_stage_abort (env : AnalyzeEnv) (url : String)
    (cd : FetchResult) (hf : env.fetch = some cd) :
    (∀ e, env.kwRun = .error e →
      analyze_url env url =
        ({ url := url, error := some (("Unexpected error: ") ++ e) },
          [Stage.fetchStage, Stage.keywordStage])) ∧
    (∀ ka e, env.kwRun = .ok ka → env.rdRun = .error e →
      analyze_url env url =
        ({ url := url, keyword_analysis := some ka,
           error := some (("Unexpected error: ") ++ e) },
          [Stage.fetchStage, Stage.keywordStage, Stage.readabilityStage])) ∧
    (∀ ka rd e, env.kwRun = .ok ka → env.rdRun = .ok rd → env.pfRun = .error e →
      analyze_url env url =
        ({ url := url, keyword_analysis := some ka, readability := some rd,
           error := some (("Unexpected error: ") ++ e) },
          [Stage.fetchStage, Stage.keywordStage, Stage.readabilityStage,
           Stage.performanceStage])) ∧
    (∀ ka rd pf e, env.kwRun = .ok ka → env.rdRun = .ok rd → env.pfRun = .ok pf →
      env.aiRun = .error e →
      analyze_url env url =
        ({ url := url, keyword_analysis := some ka, readability := some rd,
           performance := some pf,
           error := some (("Unexpected error: ") ++ e) },
          [Stage.fetchStage, Stage.keywordStage, Stage.readabilityStage,
           Stage.performanceStage, Stage.aiStage])) := by
  refine ⟨?_, ?_, ?_, ?_⟩ <;> intros <;> simp_all [analyze_url]

def cdEx : FetchResult := { content := ("hello"), full_html := ("<p>hello</p>") }

def rdEx : ReadabilityResult := { score := 60, level := ("Standard (8th–9th grade)") }

def pfEx : PerfResult :=
  { status_code := 200, response_time_seconds := some 1, page_size_kb := some 2,
    error := none }

def envKwFail : AnalyzeEnv :=
  { fetch := some cdEx, kwRun := .error ("kw boom"), rdRun := .ok rdEx,
    pfRun := .ok pfEx, aiRun := .ok [] }

def envRdFail : AnalyzeEnv :=
  { fetch := some cdEx, kwRun := .ok [], rdRun := .error ("rd boom"),
    pfRun := .ok pfEx, aiRun := .ok [] }

def envPfFail : AnalyzeEnv :=
  { fetch := some cdEx, kwRun := .ok [], rdRun := .ok rdEx,
    pfRun := .error ("pf boom"), aiRun := .ok [] }

def envAiFail : AnalyzeEnv :=
  { fetch := some cdEx, kwRun := .ok [], rdRun := .ok rdEx,
    pfRun := .ok pfEx, aiRun := .error ("ai boom") }

theorem analyze_url_stage_abort_witness :
    analyze_url envKwFail ("u") =
      ({ url := ("u"), error := some (("Unexpected error: ") ++ ("kw boom")) },
        [Stage.fetchStage, Stage.keywordStage]) ∧
    analyze_url envRdFail ("u") =
      ({ url := ("u"), keyword_analysis := some [],
         error := some (("Unexpected error: ") ++ ("rd boom")) },
        [Stage.fetchStage, Stage.keywordStage, Stage.readabilityStage]) ∧
    analyze_url envPfFail ("u") =
      ({ url := ("u"), keyword_analysis := some [], readability := some rdEx,
         error := some (("Unexpected error: ") ++ ("pf boom")) },
        [Stage.fetchStage, Stage.keywordStage, Stage.readabilityStage,
         Stage.performanceStage]) ∧
    analyze_url envAiFail ("u") =
      ({ url := ("u"), keyword_analysis := some [], readability := some rdEx,
         performance := some pfEx,
         error := some (("Unexpected error: ") ++ ("ai boom")) },
        [Stage.fetchStage, Stage.keywordStage, Stage.readabilityStage,
         Stage.performanceStage, Stage.aiStage]) :=
  ⟨(analyze_url_stage_abort envKwFail ("u") cdEx rfl).1 ("kw boom") rfl,
   (analyze_url_stage_abort envRdFail ("u") cdEx rfl).2.1 [] ("rd boom") rfl rfl,
   (analyze_url_stage_abort envPfFail ("u") cdEx rfl).2.2.1 [] rdEx ("pf boom")
     rfl rfl rfl,
   (analyze_url_stage_abort envAiFail ("u") cdEx rfl).2.2.2 [] rdEx pfEx
     ("ai boom") rfl rfl rfl rfl⟩

/-- C3 counterexample: the probe stores str(exc) verbatim, so an exception
whose message is empty (for instance a bare timeout error) yields the tagged
failure value with an empty error string, refuting the claim that the error
string is always non-empty. -/
theorem analyze_performance_empty_error_cex :
    (analyze_performance (ProbeOutcome.failure (""))).status_code = -1 ∧
    (analyze_performance (ProbeOutcome.failure (""))).error = some ("") ∧
    String.length ("") = 0 :=
  ⟨rfl, rfl, rfl⟩

/-- C3 amended: the probe is total over every outcome; on failure it returns
the tagged value with status -1, the exception message (possibly empty) and
no metric fields, on success the three metric fields and no error field, and
the two shapes are mutually exclusive. -/
theorem analyze_performance_shape (o : ProbeOutcome) :
    (∀ m, analyze_performance (ProbeOutcome.failure m) =
      { status_code := -1, response_time_seconds := none, page_size_kb := none,
        error := some m }) ∧
    (∀ s t b, (analyze_performance (ProbeOutcome.success s t b)).error = none ∧
      (analyze_performance (ProbeOutcome.success s t b)).response_time_seconds =
        some (pyRound t 3) ∧
      (analyze_performance (ProbeOutcome.success s t b)).page_size_kb =
        some (pyRound ((b : ℚ) / 1024) 2)) ∧
    (((analyze_performance o).error = none ∧
        (analyze_performance o).response_time_seconds.isSome ∧
        (analyze_performance o).page_size_kb.isSome) ∨
      ((analyze_performance o).status_code = -1 ∧
        (analyze_performance o).error.isSome ∧
        (analyze_performance o).response_time_seconds = none ∧
        (analyze_performance o).page_size_kb = none)) := by
  refine ⟨fun m => rfl, fun s t b => ⟨rfl, rfl, rfl⟩, ?_⟩
  cases o with
  | success s t b => exact Or.inl ⟨rfl, rfl, rfl⟩
  | failure m => exact Or.inr ⟨rfl, rfl, rfl, rfl⟩

theorem entryOf_insertEntry (c : List (String × FetchResult × Nat)) (u : String)
    (v : FetchResult) (now : Nat) :
    entryOf (insertEntry c u v now) u = some (v, now) := by
  simp [insertEntry, entryOf]

theorem fetch_content_hit (cache : List (String × FetchResult × Nat))
    (url : String) (now ttl : Nat) (net : HttpOutcome) (v : FetchResult)
    (h : lookupLive cache url now ttl = some v) :
    fetch_content cache url now ttl net = (some v, cache, false) := by
  simp [fetch_content, h]

theorem fetch_content_miss_some (cache : List (String × FetchResult × Nat))
    (url : String) (now ttl : Nat) (net : HttpOutcome) (fr : FetchResult)
    (h1 : lookupLive cache url now ttl = none) (h2 : fetchMiss net = some fr) :
    fetch_content cache url now ttl net =
      (some fr, insertEntry cache url fr now, true) := by
  simp [fetch_content, h1, h2]

theorem fetch_content_miss_none (cache : List (String × FetchResult × Nat))
    (url : String) (now ttl : Nat) (net : HttpOutcome)
    (h1 : lookupLive cache url now ttl = none) (h2 : fetchMiss net = none) :
    fetch_content cache url now ttl net = (none, cache, true) := by
  simp [fetch_content, h1, h2]

theorem lookupLive_eq_some (cache : List (String × FetchResult × Nat))
    (url : String) (now ttl : Nat) (v : FetchResult) :
    lookupLive cache url now ttl = some v ↔
      ∃ ts, entryOf cache url = some (v, ts) ∧ now < ts + ttl := by
  rcases h : entryOf cache url with _ | ⟨w, ts⟩
  · simp [lookupLive, h]
  · by_cases hlt : now < ts + ttl
    · simp only [lookupLive, h, if_pos hlt]
      constructor
      · intro hv
        injection hv with hv
        exact ⟨ts, by rw [hv], hlt⟩
      · rintro ⟨ts2, he2, _⟩
        injection he2 with he2
        rw [Prod.mk.injEq] at he2
        rw [he2.1]
    · simp only [lookupLive, h, if_neg hlt]
      constructor
      · intro hv
        exact absurd hv (by simp)
      · rintro ⟨ts2, he2, hlt2⟩
        injection he2 with he2
        rw [Prod.mk.injEq] at he2
        exact absurd (he2.2 ▸ hlt2) hlt

theorem lookupLive_dead (cache : List (String × FetchResult × Nat))
    (url : String) (now ttl : Nat) (v : FetchResult) (ts : Nat)
    (he : entryOf cache url = some (v, ts)) (hexp : ts + ttl ≤ now) :
    lookupLive cache url now ttl = none := by
  simp only [lookupLive, he]
  rw [if_neg (by omega)]

theorem lookupLive_none_mono (cache : List (String × FetchResult × Nat))
    (url : String) (t t2 ttl : Nat) (h : lookupLive cache url t ttl = none)
    (hle : t ≤ t2) : lookupLive cache url t2 ttl = none := by
  rcases he : entryOf cache url with _ | ⟨w, ts⟩
  · simp [lookupLive, he]
  · simp only [lookupLive, he] at h ⊢
    split at h
    · exact absurd h (by simp)
    · rename_i hdead
      rw [if_neg (by omega)]

/-- C7: the cache behaviour of fetch_content.  A successful call leaves a
live entry for the URL; a second call while that entry is within its TTL
window is answered from the cache with no network request and no state
change; a call at or past expiry goes back to the network and, on success,
stores the fresh value with the new timestamp; and every answer served
without a network request comes from an entry whose age is below its TTL. -/
theorem fetch_content_cache_ttl (cache : List (String × FetchResult × Nat))
    (url : String) (ttl t t2 : Nat) (net net2 : HttpOutcome)
    (v : FetchResult) (ts : Nat) :
    (∀ c2 n, 0 < ttl → fetch_content cache url t ttl net = (some v, c2, n) →
      ∃ ts2, entryOf c2 url = some (v, ts2) ∧ t < ts2 + ttl) ∧
    (entryOf cache url = some (v, ts) → t2 < ts + ttl →
      fetch_content cache url t2 ttl net2 = (some v, cache, false)) ∧
    (entryOf cache url = some (v, ts) → ts + ttl ≤ t2 →
      (fetch_content cache url t2 ttl net2).2.2 = true) ∧
    (∀ s fr, entryOf cache url = some (v, ts) → ts + ttl ≤ t2 →
      net2 = HttpOutcome.response s fr → ¬(400 ≤ s ∧ s < 600) →
      fetch_content cache url t2 ttl net2 =
        (some fr, insertEntry cache url fr t2, true) ∧
      entryOf (insertEntry cache url fr t2) url = some (fr, t2)) ∧
    (∀ r c2, fetch_content cache url t ttl net = (some r, c2, false) →
      ∃ ts2, entryOf cache url = some (r, ts2) ∧ t < ts2 + ttl) := by
  refine ⟨?_, ?_, ?_, ?_, ?_⟩
  · intro c2 n hpos hcall
    rcases hl : lookupLive cache url t ttl with _ | w
    · rcases hm : fetchMiss net with _ | fr
      · rw [fetch_content_miss_none cache url t ttl net hl hm] at hcall
        simp at hcall
      · rw [fetch_content_miss_some cache url t ttl net fr hl hm] at hcall
        rw [Prod.mk.injEq, Prod.mk.injEq] at hcall
        obtain ⟨hfr, hc2, _⟩ := hcall
        injection hfr with hfr
        subst hfr
        subst hc2
        exact ⟨t, entryOf_insertEntry cache url fr t, by omega⟩
    · rw [fetch_content_hit cache url t ttl net w hl] at hcall
      rw [Prod.mk.injEq, Prod.mk.injEq] at hcall
      obtain ⟨hw, hc2, _⟩ := hcall
      injection hw with hw
      subst hw
      subst hc2
      exact (lookupLive_eq_some cache url t ttl w).mp hl
  · intro he hlive
    exact fetch_content_hit cache url t2 ttl net2 v
      ((lookupLive_eq_some cache url t2 ttl v).mpr ⟨ts, he, hlive⟩)
  · intro he hexp
    have hl := lookupLive_dead cache url t2 ttl v ts he hexp
    rcases hm : fetchMiss net2 with _ | fr
    · rw [fetch_content_miss_none cache url t2 ttl net2 hl hm]
    · rw [fetch_content_miss_some cache url t2 ttl net2 fr hl hm]
  · intro s fr he hexp hnet hok
    subst hnet
    have hl := lookupLive_dead cache url t2 ttl v ts he hexp
    have hm : fetchMiss (HttpOutcome.response s fr) = some fr := by
      simp only [fetchMiss]
      rw [if_neg hok]
    exact ⟨fetch_content_miss_some cache url t2 ttl _ fr hl hm,
      entryOf_insertEntry cache url fr t2⟩
  · intro r c2 hcall
    rcases hl : lookupLive cache url t ttl with _ | w
    · rcases hm : fetchMiss net with _ | fr
      · rw [fetch_content_miss_none cache url t ttl net hl hm] at hcall
        simp at hcall
      · rw [fetch_content_miss_some cache url t ttl net fr hl hm] at hcall
        simp at hcall
    · rw [fetch_content_hit cache url t ttl net w hl] at hcall
      rw [Prod.mk.injEq, Prod.mk.injEq] at hcall
      obtain ⟨hw, _, _⟩ := hcall
      injection hw with hw
      subst hw
      exact (lookupLive_eq_some cache url t ttl w).mp hl

theorem fetch_content_cache_ttl_witness :
    fetch_content [(("u"), cdEx, 0)] ("u") 5 3600 (HttpOutcome.netFail ("x")) =
      (some cdEx, [(("u"), cdEx, 0)], false) ∧
    (fetch_content [(("u"), cdEx, 0)] ("u") 4000 3600
      (HttpOutcome.netFail ("x"))).2.2 = true :=
  ⟨(fetch_content_cache_ttl [(("u"), cdEx, 0)] ("u") 3600 0 5
      (HttpOutcome.netFail ("x")) (HttpOutcome.netFail ("x")) cdEx 0).2.1
      rfl (by decide),
   (fetch_content_cache_ttl [(("u"), cdEx, 0)] ("u") 3600 0 4000
      (HttpOutcome.netFail ("x")) (HttpOutcome.netFail ("x")) cdEx 0).2.2.1
      rfl (by decide)⟩

/-- Boolean form of the amended failure condition for a cache miss: a network
failure, an unexpected extraction failure, or an HTTP status in 400–599. -/
def missFailCond : HttpOutcome → Bool
  | .response s _ => decide (400 ≤ s) && decide (s < 600)
  | .netFail _ => true
  | .parseFail _ => true

/-- C8 counterexample: a 304 response is not a 2xx status, yet raise_for_status
only raises for 400–599, so the miss path succeeds and caches the result,
refuting the claim that every non-2xx status fails. -/
theorem fetch_content_non2xx_cex :
    fetchMiss (HttpOutcome.response 304 cdEx) = some cdEx ∧
    ¬(200 ≤ 304 ∧ 304 < 300) ∧
    fetch_content [] ("https://example.com") 0 3600
        (HttpOutcome.response 304 cdEx) =
      (some cdEx, [(("https://example.com"), cdEx, 0)], true) :=
  ⟨by simp [fetchMiss], by decide, by simp [fetch_content, lookupLive, entryOf,
    fetchMiss, insertEntry]⟩

/-- C8 amended: on a cache miss, fetch_content fails exactly when the network
request fails, the extraction raises unexpectedly, or the response status is
in 400–599 (the raise_for_status range); any other status, 2xx or not,
produces a FetchResult. -/
theorem fetch_content_miss_failure_iff (cache : List (String × FetchResult × Nat))
    (url : String) (t ttl : Nat) (net : HttpOutcome)
    (hmiss : lookupLive cache url t ttl = none) :
    ((fetch_content cache url t ttl net).1 = none ↔ missFailCond net = true) ∧
    (∀ s fr, net = HttpOutcome.response s fr → ¬(400 ≤ s ∧ s < 600) →
      (fetch_content cache url t ttl net).1 = some fr) := by
  constructor
  · cases net with
    | response s fr =>
      by_cases hs : 400 ≤ s ∧ s < 600
      · have hm : fetchMiss (HttpOutcome.response s fr) = none := by
          simp only [fetchMiss]
          rw [if_pos hs]
        rw [fetch_content_miss_none cache url t ttl _ hmiss hm]
        simp [missFailCond, hs.1, hs.2]
      · have hm : fetchMiss (HttpOutcome.response s fr) = some fr := by
          simp only [fetchMiss]
          rw [if_neg hs]
        rw [fetch_content_miss_some cache url t ttl _ fr hmiss hm]
        simp only [missFailCond]
        constructor
        · intro hcontra
          exact absurd hcontra (by simp)
        · intro hb
          exact absurd (by simpa using hb) hs
    | netFail m =>
      rw [fetch_content_miss_none cache url t ttl _ hmiss (by simp [fetchMiss])]
      simp [missFailCond]
    | parseFail m =>
      rw [fetch_content_miss_none cache url t ttl _ hmiss (by simp [fetchMiss])]
      simp [missFailCond]
  · intro s fr hnet hok
    subst hnet
    have hm : fetchMiss (HttpOutcome.response s fr) = some fr := by
      simp only [fetchMiss]
      rw [if_neg hok]
    rw [fetch_content_miss_some cache url t ttl _ fr hmiss hm]

theorem fetch_content_miss_failure_iff_witness :
    (fetch_content [] ("u") 0 3600 (HttpOutcome.netFail ("dns error"))).1 =
      none :=
  (fetch_content_miss_failure_iff [] ("u") 0 3600
    (HttpOutcome.netFail ("dns error")) rfl).1.mpr rfl

/-- C10: a failed fetch leaves the cache untouched: no entry is added or
replaced for the URL, and every later call for the same URL at the same or a
later time goes back to the network rather than serving a cached failure. -/
theorem fetch_content_failure_not_cached
    (cache : List (String × FetchResult × Nat)) (url : String)
    (t ttl : Nat) (net : HttpOutcome) (c2 : List (String × FetchResult × Nat))
    (n : Bool) (h : fetch_content cache url t ttl net = (none, c2, n)) :
    c2 = cache ∧ n = true ∧
    ∀ t2 net2, t ≤ t2 → (fetch_content cache url t2 ttl net2).2.2 = true := by
  rcases hl : lookupLive cache url t ttl with _ | w
  · rcases hm : fetchMiss net with _ | fr
    · rw [fetch_content_miss_none cache url t ttl net hl hm] at h
      rw [Prod.mk.injEq, Prod.mk.injEq] at h
      obtain ⟨_, hc2, hn⟩ := h
      refine ⟨hc2.symm, hn.symm, ?_⟩
      intro t2 net2 hle
      have hl2 := lookupLive_none_mono cache url t t2 ttl hl hle
      rcases hm2 : fetchMiss net2 with _ | fr2
      · rw [fetch_content_miss_none cache url t2 ttl net2 hl2 hm2]
      · rw [fetch_content_miss_some cache url t2 ttl net2 fr2 hl2 hm2]
    · rw [fetch_content_miss_some cache url t ttl net fr hl hm] at h
      simp at h
  · rw [fetch_content_hit cache url t ttl net w hl] at h
    simp at h

theorem fetch_content_failure_not_cached_witness :
    ([] : List (String × FetchResult × Nat)) = [] ∧ true = true ∧
    (fetch_content [] ("u") 7 3600 (HttpOutcome.parseFail ("later"))).2.2 =
      true :=
  ⟨(fetch_content_failure_not_cached [] ("u") 3 3600
      (HttpOutcome.netFail ("boom")) [] true rfl).1,
   (fetch_content_failure_not_cached [] ("u") 3 3600
      (HttpOutcome.netFail ("boom")) [] true rfl).2.1,
   (fetch_content_failure_not_cached [] ("u") 3 3600
      (HttpOutcome.netFail ("boom")) [] true rfl).2.2 7
      (HttpOutcome.parseFail ("later")) (by decide)⟩

/-- C6: the manual Flesch fallback is total: the word and sentence counts
fed to both divisions are at least one even on empty text, and the syllable
estimate of every word is at least one. -/
theorem flesch_manual_total (t : String) (w : List Char) :
    0 < wordsCountG t ∧ 0 < sentencesCountG t ∧ 1 ≤ syllable_count w := by
  refine ⟨?_, ?_, ?_⟩
  · unfold wordsCountG
    split
    · omega
    · rename_i h
      rcases hW : fleschWords t with _ | ⟨a, l⟩
      · rw [hW] at h
        simp at h
      · simp
  · unfold sentencesCountG
    split <;> omega
  · unfold syllable_count
    exact le_max_left _ _

theorem condBlock_any (c : Bool) (name k : String) (msgs : List String) :
    (condBlock c name msgs).any (fun p => p.1 == k) = (c && (name == k)) := by
  cases c <;> simp [condBlock]

theorem condBlock_all_nonempty (c : Bool) (name : String) (msgs : List String)
    (h : msgs.isEmpty = false) :
    (condBlock c name msgs).all (fun p => !p.2.isEmpty) = true := by
  cases c <;> simp [condBlock, h]

theorem condBlock_self_all_nonempty (name : String) (msgs : List String) :
    (condBlock (!msgs.isEmpty) name msgs).all (fun p => !p.2.isEmpty) = true := by
  cases msgs <;> simp [condBlock]

theorem headingMsgs_isEmpty (page : PageFacts) :
    (!(headingMsgs page).isEmpty) =
      (decide (page.h1Count ≠ 1) || decide (page.h2Count < 2)) := by
  by_cases c1 : page.h1Count ≠ 1 <;> by_cases c2 : page.h2Count < 2 <;>
    simp [headingMsgs, c1, c2]

theorem summaryMsgs_nonempty (page : PageFacts) :
    (summaryMsgs page).isEmpty = false := by
  rcases h : page.firstParagraphWords <;> simp [summaryMsgs, h]

set_option maxHeartbeats 4000000 in
/-- C9: a category key appears in the suggestion set exactly when one of its
rules fired, every present key maps to a non-empty message list, and the
well-formed example page (one h1, two h2, a list, JSON-LD, an author meta
tag, a 40-word first paragraph, short sentences) yields the empty set. -/
theorem analyze_ai_search_factors_keys (content : String) (page : PageFacts) :
    ((analyze_ai_search_factors content page).all
        (fun p => !p.2.isEmpty) = true) ∧
    ((analyze_ai_search_factors content page).any
        (fun p => p.1 == ("headings")) =
      (decide (page.h1Count ≠ 1) || decide (page.h2Count < 2))) ∧
    ((analyze_ai_search_factors content page).any
        (fun p => p.1 == ("lists")) = !page.hasListTag) ∧
    ((analyze_ai_search_factors content page).any
        (fun p => p.1 == ("schema")) =
      !(page.hasJsonLd || page.hasMicrodata)) ∧
    ((analyze_ai_search_factors content page).any
        (fun p => p.1 == ("trust")) =
      !(page.hasAuthorMeta || page.hasAuthorLink)) ∧
    ((analyze_ai_search_factors content page).any
        (fun p => p.1 == ("summary")) = summaryCond page) ∧
    ((analyze_ai_search_factors content page).any
        (fun p => p.1 == ("tone")) = toneTriggers content) ∧
    analyze_ai_search_factors ("This is a cat. It is small.")
      { h1Count := 1, h2Count := 2, hasListTag := true, hasJsonLd := true,
        hasMicrodata := false, hasAuthorMeta := true, hasAuthorLink := false,
        firstParagraphWords := some 40 } = [] := by
  refine ⟨?_, ?_, ?_, ?_, ?_, ?_, ?_, by decide⟩
  · simp [analyze_ai_search_factors, List.all_append, condBlock_all_nonempty,
      condBlock_self_all_nonempty, summaryMsgs_nonempty]
  all_goals
    simp [analyze_ai_search_factors, List.any_append, condBlock_any,
      headingMsgs_isEmpty]

theorem flesch_empty : flesch_reading_ease_manual ("") = 205.82 := by
  have h1 : wordsCountG ("") = 1 := by decide
  have h2 : sentencesCountG ("") = 1 := by decide
  have h3 : syllablesTotal ("") = 0 := by decide
  rw [flesch_reading_ease_manual, h1, h2, h3]
  norm_num

/-- C5: compute_readability is a function of the text alone (deterministic),
reports the computed score rounded to two decimals, and maps the computed
score through seven ordered bands whose lower boundaries are all closed, so
a score of exactly 90 (or 80, 70, 60, 50, 30) lands in the upper band. -/
theorem compute_readability_bands :
    (∀ t₁ t₂ : String, t₁ = t₂ → compute_readability t₁ = compute_readability t₂) ∧
    (∀ t, (compute_readability t).score =
      pyRound (flesch_reading_ease_manual t) 2) ∧
    (∀ t, 90 ≤ flesch_reading_ease_manual t →
      (compute_readability t).level = ("Very easy (5th grade)")) ∧
    (∀ t, 80 ≤ flesch_reading_ease_manual t → flesch_reading_ease_manual t < 90 →
      (compute_readability t).level = ("Easy (6th grade)")) ∧
    (∀ t, 70 ≤ flesch_reading_ease_manual t → flesch_reading_ease_manual t < 80 →
      (compute_readability t).level = ("Fairly easy")) ∧
    (∀ t, 60 ≤ flesch_reading_ease_manual t → flesch_reading_ease_manual t < 70 →
      (compute_readability t).level = ("Standard (8th–9th grade)")) ∧
    (∀ t, 50 ≤ flesch_reading_ease_manual t → flesch_reading_ease_manual t < 60 →
      (compute_readability t).level = ("Fairly difficult (10th–12th grade)")) ∧
    (∀ t, 30 ≤ flesch_reading_ease_manual t → flesch_reading_ease_manual t < 50 →
      (compute_readability t).level = ("Difficult (college)")) ∧
    (∀ t, flesch_reading_ease_manual t < 30 →
      (compute_readability t).level = ("Very confusing")) ∧
    interpretScore 90 = ("Very easy (5th grade)") ∧
    interpretScore 80 = ("Easy (6th grade)") ∧
    interpretScore 70 = ("Fairly easy") ∧
    interpretScore 60 = ("Standard (8th–9th grade)") ∧
    interpretScore 50 = ("Fairly difficult (10th–12th grade)") ∧
    interpretScore 30 = ("Difficult (college)") ∧
    interpretScore 29 = ("Very confusing") := by
  refine ⟨fun t₁ t₂ h => h ▸ rfl, fun t => rfl, ?_, ?_, ?_, ?_, ?_, ?_, ?_,
    by decide, by decide, by decide, by decide, by decide, by decide, by decide⟩
  · intro t h1
    simp only [compute_readability, interpretScore]
    rw [if_pos h1]
  · intro t h1 h2
    simp only [compute_readability, interpretScore]
    rw [if_neg (not_le.mpr h2), if_pos h1]
  · intro t h1 h2
    simp only [compute_readability, interpretScore]
    rw [if_neg (not_le.mpr (by linarith)), if_neg (not_le.mpr h2), if_pos h1]
  · intro t h1 h2
    simp only [compute_readability, interpretScore]
    rw [if_neg (not_le.mpr (by linarith)), if_neg (not_le.mpr (by linarith)),
      if_neg (not_le.mpr h2), if_pos h1]
  · intro t h1 h2
    simp only [compute_readability, interpretScore]
    rw [if_neg (not_le.mpr (by linarith)), if_neg (not_le.mpr (by linarith)),
      if_neg (not_le.mpr (by linarith)), if_neg (not_le.mpr h2), if_pos h1]
  · intro t h1 h2
    simp only [compute_readability, interpretScore]
    rw [if_neg (not_le.mpr (by linarith)), if_neg (not_le.mpr (by linarith)),
      if_neg (not_le.mpr (by linarith)), if_neg (not_le.mpr (by linarith)),
      if_neg (not_le.mpr h2), if_pos h1]
  · intro t h1
    simp only [compute_readability, interpretScore]
    rw [if_neg (not_le.mpr (by linarith)), if_neg (not_le.mpr (by linarith)),
      if_neg (not_le.mpr (by linarith)), if_neg (not_le.mpr (by linarith)),
      if_neg (not_le.mpr (by linarith)), if_neg (not_le.mpr h1)]

theorem compute_readability_bands_witness :
    ("x") = ("x") ∧
    compute_readability ("x") = compute_readability ("x") ∧
    90 ≤ flesch_reading_ease_manual ("") ∧
    (compute_readability ("")).level = ("Very easy (5th grade)") :=
  ⟨rfl,
   compute_readability_bands.1 ("x") ("x") rfl,
   by rw [flesch_empty]; norm_num,
   compute_readability_bands.2.2.1 ("") (by rw [flesch_empty]; norm_num)⟩

theorem mem_insertDesc (x z : KeywordRecord) (l : List KeywordRecord) :
    z ∈ insertDesc x l ↔ z = x ∨ z ∈ l := by
  induction l with
  | nil => simp [insertDesc]
  | cons y ys ih =>
    simp only [insertDesc]
    split
    · simp only [List.mem_cons, ih]
      tauto
    · simp [List.mem_cons]

theorem pairwise_insertDesc (x : KeywordRecord) (l : List KeywordRecord)
    (h : List.Pairwise (fun a b => b.count ≤ a.count) l) :
    List.Pairwise (fun a b => b.count ≤ a.count) (insertDesc x l) := by
  induction l with
  | nil => simp [insertDesc]
  | cons y ys ih =>
    rcases List.pairwise_cons.mp h with ⟨hy, hys⟩
    simp only [insertDesc]
    split
    · rename_i hxy
      refine List.pairwise_cons.mpr ⟨?_, ih hys⟩
      intro z hz
      rcases (mem_insertDesc x z ys).mp hz with rfl | hzys
      · exact hxy
      · exact hy z hzys
    · rename_i hxy
      push_neg at hxy
      refine List.pairwise_cons.mpr ⟨?_, h⟩
      intro z hz
      rcases List.mem_cons.mp hz with rfl | hzys
      · omega
      · exact le_trans (hy z hzys) (by omega)

theorem pairwise_foldl_insertDesc (l acc : List KeywordRecord)
    (h : List.Pairwise (fun a b => b.count ≤ a.count) acc) :
    List.Pairwise (fun a b => b.count ≤ a.count)
      (List.foldl (fun acc x => insertDesc x acc) acc l) := by
  induction l generalizing acc with
  | nil => simpa using h
  | cons x xs ih =>
    rw [List.foldl_cons]
    exact ih (insertDesc x acc) (pairwise_insertDesc x acc h)

theorem sortDesc_pairwise (l : List KeywordRecord) :
    List.Pairwise (fun a b => b.count ≤ a.count) (sortDesc l) :=
  pairwise_foldl_insertDesc l [] (by simp)

theorem mem_foldl_insertDesc (l acc : List KeywordRecord) (z : KeywordRecord)
    (h : z ∈ List.foldl (fun acc x => insertDesc x acc) acc l) :
    z ∈ acc ∨ z ∈ l := by
  induction l generalizing acc with
  | nil => exact Or.inl (by simpa using h)
  | cons x xs ih =>
    rw [List.foldl_cons] at h
    rcases ih (insertDesc x acc) h with hin | hxs
    · rcases (mem_insertDesc x z acc).mp hin with rfl | hacc
      · exact Or.inr (List.mem_cons_self _ _)
      · exact Or.inl hacc
    · exact Or.inr (List.mem_cons_of_mem x hxs)

theorem mem_sortDesc (l : List KeywordRecord) (z : KeywordRecord)
    (h : z ∈ sortDesc l) : z ∈ l := by
  rcases mem_foldl_insertDesc l [] z h with hin | hl
  · simp at hin
  · exact hl

theorem filter_insertDesc (x : KeywordRecord) (l : List KeywordRecord) (c : Nat)
    (h : List.Pairwise (fun a b => b.count ≤ a.count) l) :
    (insertDesc x l).filter (fun r => r.count == c) =
      l.filter (fun r => r.count == c) ++
        (if x.count == c then [x] else []) := by
  induction l with
  | nil =>
    simp only [insertDesc, List.filter_nil, List.nil_append]
    rw [List.filter_cons, List.filter_nil]
  | cons y ys ih =>
    rcases List.pairwise_cons.mp h with ⟨hy, hys⟩
    simp only [insertDesc]
    split
    · rename_i hxy
      simp only [List.filter_cons]
      split
      · rw [ih hys, List.cons_append]
      · rw [ih hys]
    · rename_i hxy
      push_neg at hxy
      by_cases hxc : (x.count == c) = true
      · have hcx : x.count = c := by simpa using hxc
        have hempty : (y :: ys).filter (fun r => r.count == c) = [] := by
          rw [List.filter_eq_nil_iff]
          intro a ha
          rcases List.mem_cons.mp ha with rfl | hays
          · simp only [beq_iff_eq]
            omega
          · have := hy a hays
            simp only [beq_iff_eq]
            omega
        rw [List.filter_cons, hempty]
        simp [hxc]
      · have hxc2 : (x.count == c) = false := by
          simpa using hxc
        rw [List.filter_cons, hxc2]
        simp [hxc2]

theorem filter_foldl_insertDesc (l acc : List KeywordRecord) (c : Nat)
    (h : List.Pairwise (fun a b => b.count ≤ a.count) acc) :
    (List.foldl (fun acc x => insertDesc x acc) acc l).filter
        (fun r => r.count == c) =
      acc.filter (fun r => r.count == c) ++ l.filter (fun r => r.count == c) := by
  induction l generalizing acc with
  | nil => simp
  | cons x xs ih =>
    rw [List.foldl_cons, ih (insertDesc x acc) (pairwise_insertDesc x acc h),
      filter_insertDesc x acc c h, List.filter_cons]
    by_cases hxc : (x.count == c) = true <;> simp [hxc]

theorem filter_sortDesc (l : List KeywordRecord) (c : Nat) :
    (sortDesc l).filter (fun r => r.count == c) =
      l.filter (fun r => r.count == c) := by
  simpa [sortDesc] using filter_foldl_insertDesc l [] c (by simp)

theorem filter_take_ex (l : List KeywordRecord) (p : KeywordRecord → Bool) :
    ∀ n, ∃ k, (l.take n).filter p = (l.filter p).take k := by
  induction l with
  | nil => exact fun n => ⟨0, by simp⟩
  | cons x xs ih =>
    intro n
    cases n with
    | zero => exact ⟨0, by simp⟩
    | succ m =>
      obtain ⟨k, hk⟩ := ih m
      by_cases hx : p x = true
      · exact ⟨k + 1, by simp [List.filter_cons, hx, hk]⟩
      · exact ⟨k, by simp [List.filter_cons, hx, hk]⟩

theorem mem_firstOccs (w : String) (l : List String) (h : w ∈ firstOccs l) :
    w ∈ l := by
  induction l with
  | nil => simp [firstOccs] at h
  | cons v vs ih =>
    simp only [firstOccs] at h
    rcases List.mem_cons.mp h with rfl | hmem
    · exact List.mem_cons_self _ _
    · exact List.mem_cons_of_mem _ (ih (List.mem_of_mem_filter hmem))

theorem keywordCounts_keyword_mem (text : String) (r : KeywordRecord)
    (h : r ∈ keywordCounts text) : r.keyword ∈ filteredWords text := by
  simp only [keywordCounts, List.mem_map] at h
  obtain ⟨w, hw, rfl⟩ := h
  exact mem_firstOccs w _ hw

/-- C4: extract_keywords returns at most top_n records, sorted by
non-increasing count; records of equal count keep the first-occurrence order
of the counted tokens (the filter of every count class is preserved by the
sort and truncation only takes a prefix of it); no returned keyword is a
stop word or has length at most 2; and the documented example evaluates as
stated. -/
theorem extract_keywords_spec (text : String) (top_n c : Nat) :
    (extract_keywords text top_n).length ≤ top_n ∧
    List.Pairwise (fun a b => b.count ≤ a.count) (extract_keywords text top_n) ∧
    ((extract_keywords text top_n).all
      (fun r => !(STOP_WORDS.contains r.keyword) &&
        decide (2 < r.keyword.length)) = true) ∧
    ((sortDesc (keywordCounts text)).filter (fun r => r.count == c) =
      (keywordCounts text).filter (fun r => r.count == c)) ∧
    (∃ k, (extract_keywords text top_n).filter (fun r => r.count == c) =
      ((keywordCounts text).filter (fun r => r.count == c)).take k) ∧
    extract_keywords ("the the the cat cat dog") 2 =
      [{ keyword := ("cat"), count := 2 }, { keyword := ("dog"), count := 1 }] := by
  refine ⟨?_, ?_, ?_, filter_sortDesc (keywordCounts text) c, ?_, by decide⟩
  · simp only [extract_keywords]
    exact List.length_take_le top_n (sortDesc (keywordCounts text))
  · exact List.Pairwise.sublist (List.take_sublist top_n _)
      (sortDesc_pairwise (keywordCounts text))
  · rw [List.all_eq_true]
    intro r hr
    have h1 : r ∈ sortDesc (keywordCounts text) := List.mem_of_mem_take hr
    have h2 : r ∈ keywordCounts text := mem_sortDesc _ r h1
    exact (List.mem_filter.mp (keywordCounts_keyword_mem text r h2)).2
  · obtain ⟨k, hk⟩ := filter_take_ex (sortDesc (keywordCounts text))
      (fun r => r.count == c) top_n
    exact ⟨k, by rw [extract_keywords, hk, filter_sortDesc]⟩
